import Mathlib

/-!
Verification of the variable-resolution and combinatorial plot-generation
engine of the grafana-dashboard-plotter repository
(src/dashboard.py, src/grafana_api.py, src/plots.py).

Strings are modelled as lists of characters (`Str`).  Python dictionaries
are modelled as ordered association lists with insert-or-update-in-place
semantics (`Dict`, `dictSet`), matching CPython's insertion-order
preservation; the one dict that flows through `__rec_create_panel_plot`
is mutated in place in Python, so it is threaded explicitly as state here.
External effects (HTTP calls to Grafana, the Prometheus proxy, the
filesystem) are modelled by oracle functions recorded in an `Env` /
emitted `RenderRequest` values.
-/

/-- Character strings, modelled as lists of characters. -/
abbrev Str := List Char

/-- Python `needle in hay` substring containment on strings. -/
def containsSub (needle hay : Str) : Bool :=
  hay.tails.any (fun t => needle.isPrefixOf t)

/-- Values stored in the query-parameter dictionary: the `var-...` bindings
are strings, `panelId` / `height` / `width` are integers. -/
inductive Val where
  | str : Str → Val
  | nat : Nat → Val
  deriving DecidableEq, Repr

/-- A Python dict with string keys, as an ordered association list. -/
abbrev Dict := List (Str × Val)

/-- Python `d[k] = v`: update in place if the key is present (keeping its
position, as CPython dicts do), otherwise append at the end. -/
def dictSet (d : Dict) (k : Str) (v : Val) : Dict :=
  if d.any (fun p => p.1 = k) then
    d.map (fun p => if p.1 = k then (k, v) else p)
  else
    d ++ [(k, v)]

/-- Model of `dashboard.py` `Variable`: a dashboard variable with its resolved
values (`name`, `values`). -/
structure Variable where
  name : Str
  values : List Str
  deriving DecidableEq, Repr

/-- A dashboard panel as read from the dashboard JSON.  `targets` holds the
`expr` strings of the panel's queries; `collapsed` and `panels` are
meaningful for `row` panels only (in the JSON they are only present there;
modelled as always-present fields). -/
inductive Panel where
  | mk (id : Nat) (title : Str) (ptype : Str) (collapsed : Bool)
       (targets : List Str) (panels : List Panel)

/-- Panel id accessor. -/
def Panel.id : Panel → Nat
  | .mk i _ _ _ _ _ => i

/-- Panel title accessor. -/
def Panel.title : Panel → Str
  | .mk _ t _ _ _ _ => t

/-- Panel type accessor (the `type` JSON field). -/
def Panel.ptype : Panel → Str
  | .mk _ _ ty _ _ _ => ty

/-- Panel collapsed-flag accessor. -/
def Panel.collapsed : Panel → Bool
  | .mk _ _ _ c _ _ => c

/-- Panel query-target `expr` strings accessor. -/
def Panel.targets : Panel → List Str
  | .mk _ _ _ _ ts _ => ts

/-- Child panels of a `row` panel. -/
def Panel.panels : Panel → List Panel
  | .mk _ _ _ _ _ ps => ps

/-- One render call issued by `Dashboard.__save_png`: the directory path
(as segments below the output base directory), the file name, and the
query parameters passed to `/render/d-solo/`. -/
structure RenderRequest where
  dir : List Str
  file : Str
  params : Dict
  deriving DecidableEq, Repr

/-- Ambient per-dashboard rendering data: the slug function (the external
`slugify` library, abstracted) and the configured graph dimensions. -/
structure PlotCtx where
  slug : Str → Str
  graphWidth : Nat
  graphHeight : Nat

/-- Relevance check of `Dashboard.__rec_create_panel_plot`: the variable's
name occurs as a substring of some query target's `expr` text. -/
def relevantTo (panel : Panel) (v : Variable) : Bool :=
  panel.targets.any (fun t => containsSub v.name t)

/-- Model of `Dashboard.__save_png`: add `panelId` (and, for `graph` / `timeseries`
panels, `height` then `width`) to the shared parameter dict and issue the
render request for `dir/slug(title).png`.  Returns the mutated dict and
the emitted request. -/
def savePng (cx : PlotCtx) (panel : Panel) (dir : List Str) (params : Dict) :
    Dict × List RenderRequest :=
  let p1 := dictSet params ("panelId".data) (Val.nat panel.id)
  let p2 :=
    if panel.ptype = ("graph".data) ∨ panel.ptype = ("timeseries".data) then
      dictSet (dictSet p1 ("height".data) (Val.nat cx.graphHeight))
        ("width".data) (Val.nat cx.graphWidth)
    else p1
  (p2, [⟨dir, cx.slug panel.title ++ (".png".data), p2⟩])

/-- The `for val in current_var.values` loop of
`Dashboard.__rec_create_panel_plot` for a relevant variable: for each value
in list order, descend into the slug-named sub-directory, set the
`var-<name>` binding in the shared dict, and run the continuation `k`
(the recursion at the next variable index).  The dict is threaded through
the iterations, as the mutable Python dict is. -/
def iterVals (key : Str) (slug : Str → Str)
    (k : List Str → Dict → Dict × List RenderRequest) :
    List Str → List Str → Dict → Dict × List RenderRequest
  | [], _, params => (params, [])
  | val :: vs, dir, params =>
    let r1 := k (dir ++ [slug val]) (dictSet params key (Val.str val))
    let r2 := iterVals key slug k vs dir r1.1
    (r2.1, r1.2 ++ r2.2)

/-- Model of `Dashboard.__rec_create_panel_plot`: walk the variable list; a variable
relevant to the panel contributes one directory level and one `var-`
binding per value (iterated in list order), an irrelevant one is skipped
with directory and binding unchanged; at the end of the list the render
request is issued via `savePng`. -/
def recPanel (cx : PlotCtx) (panel : Panel) :
    List Variable → List Str → Dict → Dict × List RenderRequest
  | [], dir, params => savePng cx panel dir params
  | v :: rest, dir, params =>
    if relevantTo panel v then
      iterVals ("var-".data ++ v.name) cx.slug
        (fun d p => recPanel cx panel rest d p) v.values dir params
    else
      recPanel cx panel rest dir params

/-- Model of `Dashboard.create_panel_plot`: process one panel with a fresh empty
parameter dict, returning the render requests issued for it. -/
def createPanelPlot (cx : PlotCtx) (vars : List Variable) (dir : List Str)
    (panel : Panel) : List RenderRequest :=
  (recPanel cx panel vars dir []).2

/-- Loop body of `Dashboard.create_plots` for one top-level panel: non-row
panels are plotted directly; a `row` panel is expanded into its children
(each with the dashboard's base directory) only when collapsed-row
rendering is enabled and the row is collapsed, and is otherwise skipped. -/
def plotTopPanel (cx : PlotCtx) (vars : List Variable)
    (renderCollapsed : Bool) (dir : List Str) (panel : Panel) :
    List RenderRequest :=
  if panel.ptype ≠ ("row".data) then
    createPanelPlot cx vars dir panel
  else if renderCollapsed ∧ panel.collapsed then
    panel.panels.flatMap (createPanelPlot cx vars dir)
  else
    []

/-- Model of `Dashboard.create_plots`: create the dashboard's directory below the
output base directory and process every top-level panel. -/
def createPlots (cx : PlotCtx) (vars : List Variable)
    (renderCollapsed : Bool) (base : List Str) (dashSlug : Str)
    (panels : List Panel) : List RenderRequest :=
  panels.flatMap (plotTopPanel cx vars renderCollapsed (base ++ [dashSlug]))

/-- The Cartesian product of a list of value lists, leftmost list
outermost, values iterated in list order. -/
def cartProd : List (List Str) → List (List Str)
  | [] => [[]]
  | l :: ls => l.flatMap (fun x => (cartProd ls).map (fun c => x :: c))

/-- Keys added by `dictSet` satisfy a predicate preserved from the input
dict plus the inserted key. -/
theorem dictSet_keys {K : Str → Prop} {d : Dict} {k : Str} {v : Val}
    (hd : ∀ p ∈ d, K p.1) (hk : K k) :
    ∀ p ∈ dictSet d k v, K p.1 := by
  intro p hp
  unfold dictSet at hp
  split at hp
  · rcases List.mem_map.1 hp with ⟨q, hq, hEq⟩
    by_cases h : q.1 = k
    · simp only [h, if_pos] at hEq
      subst hEq; exact hk
    · simp only [h, if_neg, not_false_iff] at hEq
      subst hEq; exact hd q hq
  · rcases List.mem_append.1 hp with h | h
    · exact hd p h
    · simp only [List.mem_singleton] at h
      subst h; exact hk

/-- Key invariant of `savePng`: the output dict and the emitted request's
parameters only hold keys from the input dict or the reserved
`panelId` / `height` / `width` keys. -/
theorem savePng_keys {K : Str → Prop} (cx : PlotCtx) (panel : Panel)
    (dir : List Str) (params : Dict)
    (hp : ∀ q ∈ params, K q.1)
    (h1 : K ("panelId".data)) (h2 : K ("height".data)) (h3 : K ("width".data)) :
    (∀ q ∈ (savePng cx panel dir params).1, K q.1) ∧
    (∀ r ∈ (savePng cx panel dir params).2, ∀ q ∈ r.params, K q.1) := by
  have hkeys : ∀ q ∈ (savePng cx panel dir params).1, K q.1 := by
    unfold savePng
    dsimp only
    split
    · exact dictSet_keys (dictSet_keys (dictSet_keys hp h1) h2) h3
    · exact dictSet_keys hp h1
  refine ⟨hkeys, ?_⟩
  intro r hr
  have : r.params = (savePng cx panel dir params).1 := by
    unfold savePng at hr ⊢
    dsimp only at hr ⊢
    simp only [List.mem_singleton] at hr
    subst hr
    rfl
  rw [this]
  exact hkeys

/-- Key invariant of `iterVals`, given that the continuation preserves it. -/
theorem iterVals_keys {K : Str → Prop} (key : Str) (slug : Str → Str)
    (k : List Str → Dict → Dict × List RenderRequest)
    (hkey : K key)
    (hcont : ∀ d p, (∀ q ∈ p, K q.1) →
      (∀ q ∈ (k d p).1, K q.1) ∧ (∀ r ∈ (k d p).2, ∀ q ∈ r.params, K q.1)) :
    ∀ (vals : List Str) (dir : List Str) (params : Dict),
      (∀ q ∈ params, K q.1) →
      (∀ q ∈ (iterVals key slug k vals dir params).1, K q.1) ∧
      (∀ r ∈ (iterVals key slug k vals dir params).2, ∀ q ∈ r.params, K q.1) := by
  intro vals
  induction vals with
  | nil => intro dir params hp; exact ⟨hp, by intro r hr; cases hr⟩
  | cons val vs ih =>
    intro dir params hp
    have h1 := hcont (dir ++ [slug val]) (dictSet params key (Val.str val))
      (dictSet_keys hp hkey)
    have h2 := ih dir _ h1.1
    simp only [iterVals]
    refine ⟨h2.1, ?_⟩
    intro r hr
    rcases List.mem_append.1 hr with h | h
    · exact h1.2 r h
    · exact h2.2 r h

/-- Key invariant of `recPanel`: starting from a dict whose keys satisfy
`K`, with `K` holding for `panelId` / `height` / `width` and for the
`var-` key of every relevant variable, every key of the final dict and of
every issued request's parameters satisfies `K`. -/
theorem recPanel_keys {K : Str → Prop} (cx : PlotCtx) (panel : Panel)
    (h1 : K ("panelId".data)) (h2 : K ("height".data)) (h3 : K ("width".data)) :
    ∀ (vars : List Variable) (dir : List Str) (params : Dict),
      (∀ q ∈ params, K q.1) →
      (∀ w ∈ vars, relevantTo panel w = true → K ("var-".data ++ w.name)) →
      (∀ q ∈ (recPanel cx panel vars dir params).1, K q.1) ∧
      (∀ r ∈ (recPanel cx panel vars dir params).2, ∀ q ∈ r.params, K q.1) := by
  intro vars
  induction vars with
  | nil =>
    intro dir params hp _
    exact savePng_keys cx panel dir params hp h1 h2 h3
  | cons v rest ih =>
    intro dir params hp hvars
    simp only [recPanel]
    by_cases hrel : relevantTo panel v = true
    · rw [if_pos hrel]
      refine iterVals_keys _ cx.slug _ (hvars v (List.mem_cons_self v rest) hrel)
        ?_ v.values dir params hp
      intro d p hpk
      exact ih d p hpk (fun w hw => hvars w (List.mem_cons_of_mem v hw))
    · rw [if_neg hrel]
      exact ih dir params hp (fun w hw => hvars w (List.mem_cons_of_mem v hw))

/-- Map of the requests emitted by `iterVals` through an observation `f`
that the continuation computes independently of the threaded dict:
one block per value, in list order. -/
theorem iterVals_map {α : Type} (f : RenderRequest → α) (key : Str)
    (slug : Str → Str) (k : List Str → Dict → Dict × List RenderRequest)
    (g : List Str → List α)
    (hk : ∀ d p, ((k d p).2).map f = g d) :
    ∀ (vals : List Str) (dir : List Str) (params : Dict),
      ((iterVals key slug k vals dir params).2).map f
        = vals.flatMap (fun v => g (dir ++ [slug v])) := by
  intro vals
  induction vals with
  | nil => intro dir params; rfl
  | cons val vs ih =>
    intro dir params
    simp only [iterVals, List.flatMap_cons, List.map_append, hk, ih]

/-- The directory/file observations of the requests emitted by `recPanel`
are exactly the base directory extended with the slugs of one element of
the Cartesian product of the relevant variables' value lists, in
declaration-and-list order; the file is always the slug of the panel
title with a `.png` suffix. -/
theorem recPanel_map_dirFile (cx : PlotCtx) (panel : Panel) :
    ∀ (vars : List Variable) (dir : List Str) (params : Dict),
      ((recPanel cx panel vars dir params).2).map (fun r => (r.dir, r.file))
        = (cartProd ((vars.filter (fun v => relevantTo panel v)).map
            Variable.values)).map
            (fun combo =>
              (dir ++ combo.map cx.slug,
               cx.slug panel.title ++ (".png".data))) := by
  intro vars
  induction vars with
  | nil =>
    intro dir params
    simp [recPanel, savePng, cartProd]
  | cons v rest ih =>
    intro dir params
    simp only [recPanel]
    by_cases hrel : relevantTo panel v = true
    · rw [if_pos hrel]
      rw [iterVals_map (fun r => (r.dir, r.file)) _ cx.slug _
        (fun d => (cartProd ((rest.filter (fun w => relevantTo panel w)).map
            Variable.values)).map
          (fun combo => (d ++ combo.map cx.slug,
            cx.slug panel.title ++ (".png".data))))
        (fun d p => ih d p)]
      simp only [List.filter_cons_of_pos hrel, List.map_cons, cartProd,
        List.map_flatMap, List.map_map]
      apply List.flatMap_congr
      intro val _
      apply List.map_congr_left
      intro combo _
      simp [Function.comp, List.append_assoc]
    · rw [if_neg hrel]
      rw [ih dir params]
      rw [List.filter_cons_of_neg (by simpa using hrel)]

/-- Length of the Cartesian product: the product of the list lengths. -/
theorem cartProd_length :
    ∀ ls : List (List Str), (cartProd ls).length = (ls.map List.length).prod := by
  intro ls
  induction ls with
  | nil => rfl
  | cons l ls ih =>
    simp only [cartProd, List.length_flatMap, List.map_map, List.map_cons,
      List.prod_cons]
    have : (List.map (List.length ∘ fun x => List.map (fun c => x :: c)
        (cartProd ls)) l) = List.map (fun _ => (cartProd ls).length) l := by
      apply List.map_congr_left
      intro x _
      simp [Function.comp]
    rw [this, ih]
    simp [List.map_const', List.sum_replicate, smul_eq_mul]

/-- Concrete example panel for the two-variable Cartesian product check:
its single query mentions both `A` and `B`. -/
def exPanelAB : Panel :=
  .mk 7 ("panel".data) ("stat".data) false [("sum(A) + B".data)] []

/-- Concrete example variable `A` with values `1`, `2`. -/
def exA : Variable := ⟨"A".data, [("1".data), ("2".data)]⟩

/-- Concrete example variable `B` with values `x`, `y`. -/
def exB : Variable := ⟨"B".data, [("x".data), ("y".data)]⟩

/-- Concrete plot context whose slug function is the identity (all the
example values are already slugs). -/
def exCx : PlotCtx := ⟨fun s => s, 1200, 500⟩

/-- C1: for every panel and resolved variable list, the combination engine
issues exactly one render request per element of the Cartesian product of
the value lists of the variables relevant to the panel (name occurs as a
substring of some query target), values iterated in list order with
relevant variables nested in declaration order (first variable outermost
directory); in particular, for two relevant variables `A=[1,2]` and
`B=[x,y]` exactly 4 render requests are issued, nested
`A-value/B-value/panel.png`. -/
theorem c1_cartesian_render_requests :
    (∀ (cx : PlotCtx) (panel : Panel) (vars : List Variable) (dir : List Str)
        (params : Dict),
      ((recPanel cx panel vars dir params).2).map (fun r => (r.dir, r.file))
        = (cartProd ((vars.filter (fun v => relevantTo panel v)).map
            Variable.values)).map
            (fun combo => (dir ++ combo.map cx.slug,
              cx.slug panel.title ++ (".png".data))) ∧
      ((recPanel cx panel vars dir params).2).length
        = ((vars.filter (fun v => relevantTo panel v)).map
            (fun v => v.values.length)).prod)
    ∧ createPanelPlot exCx [exA, exB] [] exPanelAB =
      [⟨[("1".data), ("x".data)], ("panel.png".data),
        [(("var-A".data), Val.str ("1".data)),
         (("var-B".data), Val.str ("x".data)),
         (("panelId".data), Val.nat 7)]⟩,
       ⟨[("1".data), ("y".data)], ("panel.png".data),
        [(("var-A".data), Val.str ("1".data)),
         (("var-B".data), Val.str ("y".data)),
         (("panelId".data), Val.nat 7)]⟩,
       ⟨[("2".data), ("x".data)], ("panel.png".data),
        [(("var-A".data), Val.str ("2".data)),
         (("var-B".data), Val.str ("x".data)),
         (("panelId".data), Val.nat 7)]⟩,
       ⟨[("2".data), ("y".data)], ("panel.png".data),
        [(("var-A".data), Val.str ("2".data)),
         (("var-B".data), Val.str ("y".data)),
         (("panelId".data), Val.nat 7)]⟩] := by
  constructor
  · intro cx panel vars dir params
    refine ⟨recPanel_map_dirFile cx panel vars dir params, ?_⟩
    have h := congrArg List.length
      (recPanel_map_dirFile cx panel vars dir params)
    simpa [cartProd_length, List.map_map, Function.comp] using h
  · decide

/-- Concrete example variable `C`, not mentioned by `exPanelAB`'s query. -/
def exC : Variable := ⟨"C".data, [("z".data)]⟩

/-- First render request of `createPanelPlot exCx [exA, exC] [] exPanelAB`
(variable `A` relevant, `C` irrelevant). -/
def exReq0 : RenderRequest :=
  ⟨[("1".data)], ("panel.png".data),
   [(("var-A".data), Val.str ("1".data)), (("panelId".data), Val.nat 7)]⟩

/-- C2: a variable judged not relevant to the panel is skipped with the
directory and the shared parameter dict unchanged, and consequently every
key of every issued request's parameters is one of the reserved
`panelId` / `height` / `width` keys or the `var-` key of a relevant
variable — an irrelevant variable contributes no directory level and no
`var-` binding to any render request of the panel. -/
theorem c2_irrelevant_variable_no_effect :
    (∀ (cx : PlotCtx) (panel : Panel) (v : Variable) (rest : List Variable)
        (dir : List Str) (params : Dict),
      relevantTo panel v = false →
      recPanel cx panel (v :: rest) dir params
        = recPanel cx panel rest dir params)
    ∧ (∀ (cx : PlotCtx) (panel : Panel) (vars : List Variable)
        (dir : List Str) (r : RenderRequest),
      r ∈ (recPanel cx panel vars dir []).2 →
      ∀ q ∈ r.params,
        q.1 = ("panelId".data) ∨ q.1 = ("height".data) ∨
        q.1 = ("width".data) ∨
        ∃ w ∈ vars, relevantTo panel w = true ∧
          q.1 = ("var-".data ++ w.name))
    ∧ (∀ (cx : PlotCtx) (panel : Panel) (vars : List Variable)
        (dir : List Str) (r : RenderRequest) (u : Variable),
      r ∈ (recPanel cx panel vars dir []).2 →
      relevantTo panel u = false →
      (∀ w ∈ vars, relevantTo panel w = true → w.name ≠ u.name) →
      ∀ q ∈ r.params, q.1 ≠ ("var-".data ++ u.name)) := by
  have hkeys : ∀ (cx : PlotCtx) (panel : Panel) (vars : List Variable)
      (dir : List Str) (r : RenderRequest),
      r ∈ (recPanel cx panel vars dir []).2 →
      ∀ q ∈ r.params,
        q.1 = ("panelId".data) ∨ q.1 = ("height".data) ∨
        q.1 = ("width".data) ∨
        ∃ w ∈ vars, relevantTo panel w = true ∧
          q.1 = ("var-".data ++ w.name) := by
    intro cx panel vars dir r hr
    have h := recPanel_keys (K := fun k =>
        k = ("panelId".data) ∨ k = ("height".data) ∨ k = ("width".data) ∨
        ∃ w ∈ vars, relevantTo panel w = true ∧ k = ("var-".data ++ w.name))
      cx panel (Or.inl rfl) (Or.inr (Or.inl rfl)) (Or.inr (Or.inr (Or.inl rfl)))
      vars dir [] (by intro q hq; cases hq)
      (fun w hw hrel => Or.inr (Or.inr (Or.inr ⟨w, hw, hrel, rfl⟩)))
    exact h.2 r hr
  refine ⟨?_, hkeys, ?_⟩
  · intro cx panel v rest dir params hrel
    simp [recPanel, hrel]
  · intro cx panel vars dir r u hr hu hnames q hq hcontra
    rcases hkeys cx panel vars dir r hr q hq with h | h | h | ⟨w, hw, hwrel, hwk⟩
    · rw [hcontra] at h
      simp [String.data] at h
    · rw [hcontra] at h
      simp [String.data] at h
    · rw [hcontra] at h
      simp [String.data] at h
    · rw [hcontra] at hwk
      exact hnames w hw hwrel (List.append_cancel_left hwk.symm)

/-- Witness for C2: skipping the irrelevant variable `C` leaves the
recursion state unchanged, and the request issued for `exPanelAB` with
variables `A` (relevant) and `C` (irrelevant) carries no `var-C`
binding. -/
theorem c2_irrelevant_variable_no_effect_witness :
    (recPanel exCx exPanelAB [exC] [] []
      = recPanel exCx exPanelAB [] [] [])
    ∧ ("var-C".data) ∉ exReq0.params.map Prod.fst := by
  constructor
  · exact c2_irrelevant_variable_no_effect.1 exCx exPanelAB exC [] [] []
      (by decide)
  · intro hmem
    rcases List.mem_map.1 hmem with ⟨q, hq, hfst⟩
    have h := c2_irrelevant_variable_no_effect.2.2 exCx exPanelAB [exA, exC]
      [] exReq0 exC (by decide) (by decide)
      (by
        intro w hw hrel
        rcases List.mem_cons.1 hw with rfl | hw2
        · decide
        · rcases List.mem_cons.1 hw2 with rfl | h3
          · exact absurd hrel (by decide)
          · cases h3)
      q hq
    exact h (by rw [hfst]; decide)

/-- First character class of the label-name group: `[a-zA-Z_]`. -/
def isIdentStart (c : Char) : Bool := c.isAlpha || c = '_'

/-- Continuation character class of the label-name group: `[a-zA-Z0-9_]`. -/
def isIdentCont (c : Char) : Bool := c.isAlpha || c.isDigit || c = '_'

/-- Python regex `\s` whitespace (ASCII part; the modelled strings are
ASCII). -/
def pyWs (c : Char) : Bool :=
  c = ' ' || c = '\t' || c = '\n' || c = '\r' || c = '\x0b' || c = '\x0c'

/-- The shape `[a-zA-Z_][a-zA-Z0-9_]*` of a label name. -/
def identStr (l : Str) : Bool :=
  match l with
  | [] => false
  | c :: cs => isIdentStart c && cs.all isIdentCont

/-- Greedy parse of the label-name group `([a-zA-Z_][a-zA-Z0-9_]*)` at the
head of `r`; returns the label and the remaining characters. -/
def parseLabelAt (r : Str) : Option (Str × Str) :=
  match r with
  | [] => none
  | c :: cs =>
    if isIdentStart c then
      some (c :: cs.takeWhile isIdentCont, cs.dropWhile isIdentCont)
    else none

/-- Parse of the regex tail `\s*([a-zA-Z_][a-zA-Z0-9_]*)\)\s*$` after the
comma that closes the metric group; the greedy `\s*` and label runs are
deterministic because whitespace, identifier characters and `)` do not
overlap. -/
def parseTailAfterComma (r : Str) : Option Str :=
  match parseLabelAt (r.dropWhile pyWs) with
  | some (lab, ')' :: r3) => if r3.all pyWs then some lab else none
  | _ => none

/-- Backtracking search of the greedy optional metric group `(?:(.+),\s*)?`:
metric candidates `r.take k` are tried from the longest down (the regex
engine gives back one character at a time), each must be newline-free
(`.` does not match a newline), be followed by a literal comma, and leave
a tail accepted by `parseTailAfterComma`. -/
def tryMetricFrom (r : Str) : Nat → Option (Str × Str)
  | 0 => none
  | k + 1 =>
    if (r.take (k + 1)).all (fun c => c ≠ '\n') then
      match r.drop (k + 1) with
      | ',' :: rest =>
        match parseTailAfterComma rest with
        | some lab => some (r.take (k + 1), lab)
        | none => tryMetricFrom r k
      | _ => tryMetricFrom r k
    else tryMetricFrom r k

/-- Model of `GrafanaClient.query_prometheus`'s compiled pattern
`^label_values\((?:(.+),\s*)?([a-zA-Z_][a-zA-Z0-9_]*)\)\s*$` applied with
`re.match` / `re.findall`: on a match, the pair (metric group or empty,
label group); on a non-match, `none`.  The group-present alternative is
tried first and with the longest metric, following the engine's greedy
backtracking order. -/
def labelValuesMatch (q : Str) : Option (Str × Str) :=
  if ("label_values(".data).isPrefixOf q then
    let r := q.drop (("label_values(".data).length)
    match tryMetricFrom r r.length with
    | some (m, lab) => some (m, lab)
    | none =>
      match parseLabelAt r with
      | some (lab, ')' :: r3) => if r3.all pyWs then some ([], lab) else none
      | _ => none
  else none

/-- Specification-side statement that the whole string `q` — not a mere
substring — is an instance of the `label_values(<metric?>, <label>)`
grammar with metric group `m` and label `lab`: `q` decomposes exactly
into the literal prefix, the groups, the closing parenthesis and
trailing whitespace. -/
def FullLabelValues (q m lab : Str) : Prop :=
  identStr lab = true ∧
  ((m = [] ∧ ∃ w, w.all pyWs = true ∧
      q = ("label_values(".data) ++ lab ++ ')' :: w) ∨
   (m ≠ [] ∧ (m.all (fun c => c ≠ '\n')) = true ∧
      ∃ w2 w, w2.all pyWs = true ∧ w.all pyWs = true ∧
        q = ("label_values(".data) ++ m ++ ',' :: w2 ++ lab ++ ')' :: w))

/-- Soundness of the greedy label parse: on success the input splits as
the label followed by the rest, and the label has identifier shape. -/
theorem parseLabelAt_sound {r lab r2 : Str}
    (h : parseLabelAt r = some (lab, r2)) :
    r = lab ++ r2 ∧ identStr lab = true := by
  cases r with
  | nil => simp [parseLabelAt] at h
  | cons c cs =>
    simp only [parseLabelAt] at h
    split at h
    · rename_i hstart
      simp only [Option.some.injEq, Prod.mk.injEq] at h
      obtain ⟨hlab, hr2⟩ := h
      subst hlab hr2
      constructor
      · simp [List.takeWhile_append_dropWhile]
      · simp only [identStr, hstart, Bool.true_and]
        exact List.all_eq_true.2 (fun x hx => List.mem_takeWhile_imp hx)
    · cases h

/-- Soundness of the tail parse after the metric group's comma: on success
the input splits into leading whitespace, the label, the closing
parenthesis and trailing whitespace. -/
theorem parseTailAfterComma_sound {r : Str} {lab : Str}
    (h : parseTailAfterComma r = some lab) :
    ∃ w2 r3, r = w2 ++ lab ++ ')' :: r3 ∧ w2.all pyWs = true ∧
      r3.all pyWs = true ∧ identStr lab = true := by
  simp only [parseTailAfterComma] at h
  split at h
  · rename_i lab' r3 heq
    obtain ⟨hdec, hident⟩ := parseLabelAt_sound heq
    split at h
    · rename_i hws
      have hlab : lab' = lab := Option.some.inj h
      subst hlab
      refine ⟨r.takeWhile pyWs, r3, ?_, ?_, hws, hident⟩
      · conv_lhs => rw [(List.takeWhile_append_dropWhile pyWs r).symm]
        rw [hdec]
        simp [List.append_assoc]
      · exact List.all_eq_true.2 (fun x hx => List.mem_takeWhile_imp hx)
    · cases h
  · cases h

/-- Soundness of the greedy metric-group search: on success the rest of
the query splits as a nonempty newline-free metric, a comma, and a tail
accepted by `parseTailAfterComma`. -/
theorem tryMetricFrom_sound {r m lab : Str} :
    ∀ n, tryMetricFrom r n = some (m, lab) →
      m ≠ [] ∧ (m.all (fun c => c ≠ '\n')) = true ∧
      ∃ rest, r = m ++ ',' :: rest ∧ parseTailAfterComma rest = some lab := by
  intro n
  induction n with
  | zero => intro h; cases h
  | succ k ih =>
    intro h
    simp only [tryMetricFrom] at h
    split at h
    · rename_i hnl
      split at h
      · rename_i rest hdrop
        split at h
        · rename_i lab' htail
          simp only [Option.some.injEq, Prod.mk.injEq] at h
          obtain ⟨hm, hlab⟩ := h
          subst hm hlab
          have hlen : k + 1 < r.length := by
            by_contra hle
            have : r.drop (k + 1) = [] :=
              List.drop_eq_nil_iff.2 (Nat.le_of_not_lt hle)
            rw [this] at hdrop
            cases hdrop
          refine ⟨?_, hnl, rest, ?_, htail⟩
          · intro hemp
            have hlt : (r.take (k + 1)).length = k + 1 := by
              rw [List.length_take]
              omega
            rw [hemp] at hlt
            simp at hlt
          · conv_lhs => rw [(List.take_append_drop (k + 1) r).symm]
            rw [hdrop]
        · exact ih h
      · exact ih h
    · exact ih h

/-- C7: the query-grammar matcher accepts a query string only when the
entire string matches the `label_values(<optional metric>, <label>)`
grammar — the decomposition of `FullLabelValues` covers every character
of the input — returning the optional metric expression and the label
name; a string that merely contains the token `label_values` somewhere
inside is not accepted. -/
theorem c7_match_anchored_to_full_string :
    (∀ q m lab, labelValuesMatch q = some (m, lab) → FullLabelValues q m lab)
    ∧ labelValuesMatch ("echo label_values(up, instance)".data) = none := by
  constructor
  · intro q m lab h
    simp only [labelValuesMatch] at h
    split at h
    · rename_i hpre
      have hq : q = ("label_values(".data)
          ++ q.drop (("label_values(".data).length) := by
        obtain ⟨t, ht⟩ := List.isPrefixOf_iff_prefix.1 hpre
        rw [← ht, List.drop_left]
      split at h
      · rename_i m' lab' heq
        simp only [Option.some.injEq, Prod.mk.injEq] at h
        obtain ⟨hm, hlab⟩ := h
        subst hm hlab
        obtain ⟨hne, hnl, rest, hr, htail⟩ := tryMetricFrom_sound _ heq
        obtain ⟨w2, r3, hrest, hw2, hr3, hident⟩ := parseTailAfterComma_sound htail
        refine ⟨hident, Or.inr ⟨hne, hnl, w2, r3, hw2, hr3, ?_⟩⟩
        rw [hq, hr, hrest]
        simp [List.append_assoc]
      · split at h
        · rename_i lab' r3 hpl
          split at h
          · rename_i hws
            simp only [Option.some.injEq, Prod.mk.injEq] at h
            obtain ⟨hm, hlab⟩ := h
            subst hlab
            obtain ⟨hdec, hident⟩ := parseLabelAt_sound hpl
            refine ⟨hident, Or.inl ⟨hm.symm, r3, hws, ?_⟩⟩
            rw [hq, hdec]
            simp [List.append_assoc]
          · cases h
        · cases h
    · cases h
  · decide

/-- Witness for C7: the accepted query `label_values(up, instance)` is
certified by the theorem to be a full-string instance of the grammar with
metric `up` and label `instance`. -/
theorem c7_match_anchored_to_full_string_witness :
    FullLabelValues ("label_values(up, instance)".data) ("up".data)
      ("instance".data) :=
  c7_match_anchored_to_full_string.1 _ _ _ (by decide)

/-- Python `s.replace(old, new)` for a nonempty pattern (the program only
calls it with the pattern `$job`): scan left to right, replacing each
leftmost non-overlapping occurrence and never rescanning replaced text. -/
def pyReplaceAux (old new : Str) : Str → Str
  | [] => []
  | c :: rest =>
    if h : old ≠ [] ∧ old.isPrefixOf (c :: rest) = true then
      new ++ pyReplaceAux old new ((c :: rest).drop old.length)
    else
      c :: pyReplaceAux old new rest
termination_by s => s.length
decreasing_by
  · simp only [List.length_drop, List.length_cons]
    have h1 : 1 ≤ old.length := by
      cases old with
      | nil => exact absurd rfl h.1
      | cons a as => simp
    omega
  · simp

/-- Python `s.replace(old, new)` in the argument order of the method call. -/
def pyReplace (s old new : Str) : Str := pyReplaceAux old new s

/-- Split a string at the leftmost non-overlapping occurrences of `old`
(nonempty): the returned parts are the maximal occurrence-free segments
between occurrences.  Used to state what `pyReplace` replaces. -/
def splitOnSub (old : Str) : Str → List Str
  | [] => [[]]
  | c :: rest =>
    if h : old ≠ [] ∧ old.isPrefixOf (c :: rest) = true then
      [] :: splitOnSub old ((c :: rest).drop old.length)
    else
      match splitOnSub old rest with
      | [] => [[c]]
      | p :: ps => (c :: p) :: ps
termination_by s => s.length
decreasing_by
  · simp only [List.length_drop, List.length_cons]
    have h1 : 1 ≤ old.length := by
      cases old with
      | nil => exact absurd rfl h.1
      | cons a as => simp
    omega
  · simp

/-- Join a list of parts with a separator between consecutive parts. -/
def joinWith (sep : Str) : List Str → Str
  | [] => []
  | [p] => p
  | p :: q :: ps => p ++ sep ++ joinWith sep (q :: ps)

/-- The metric string actually sent to the Prometheus series endpoint by
`GrafanaClient.__prom_label_values`: when the metric expression contains
the substring `node`, every `$job` is replaced by the configured
node-exporter job name; otherwise the expression is sent unmodified. -/
def promSentMetric (jobName metric : Str) : Str :=
  if containsSub ("node".data) metric then
    pyReplace metric ("$job".data) jobName
  else metric

/-- One entry of the `/api/datasources` listing consumed by
`GrafanaClient`. -/
structure DsJson where
  name : Str
  uid : Str
  dstype : Str
  id : Nat
  deriving DecidableEq, Repr

/-- The `datasource` field of a dashboard variable: either a plain name
string or the JSON object form holding `type` and `uid`. -/
inductive DsRef where
  | byName (name : Str)
  | byUid (dstype : Str) (uid : Str)
  deriving DecidableEq, Repr

/-- The `query` field of a query-type dashboard variable (an object whose
`query` key holds the query text). -/
structure QueryJson where
  query : Str
  deriving DecidableEq, Repr

/-- One entry of `dashboard.templating.list`: a variable declaration with
its `type` tag (kept as a raw string, as the source dispatches on it),
the `value` fields of its options, and its query and datasource. -/
structure VarDecl where
  name : Str
  vtype : Str
  options : List Str
  query : QueryJson
  datasource : DsRef
  deriving DecidableEq, Repr

/-- The exceptions of the program: `VariableError` (dashboard.py),
`DataSourceError` and `ApiError` (grafana_api.py), and Python's built-in
`TypeError` (raised by `list(None)`). -/
inductive PyErr where
  | variableError (msg : Str)
  | dataSourceError (msg : Str)
  | apiError (msg : Str)
  | typeError (msg : Str)
  deriving DecidableEq, Repr

/-- The parts of a fetched dashboard JSON the program reads: the slug,
the variable declarations and the top-level panels. -/
structure DashJson where
  slug : Str
  templating : List VarDecl
  panels : List Panel

/-- Oracles for the external collaborators: the Grafana API (dashboard
fetch, datasource listing, Prometheus proxy endpoints), the behaviour of
Python's `list(set(...))` (an unspecified enumeration order,
constrained by `IsPySetList` in the theorems), the configured
node-exporter job name, and the `slugify` library.  The `start` / `end`
second-resolution time parameters of the series endpoint are fixed for a
run and therefore not modelled as arguments. -/
structure Env where
  getDashboard : Str → Except PyErr DashJson
  datasources : List DsJson
  labelEndpoint : Nat → Str → List Str
  seriesEndpoint : Nat → Str → List (List (Str × Str))
  pySetList : List Str → List Str
  nodeExporterJobName : Str
  slug : Str → Str

/-- Python's `list(set(...))` guarantees: the result is duplicate-free and
has exactly the members of the input, in an unspecified order. -/
def IsPySetList (f : List Str → List Str) : Prop :=
  ∀ l, (f l).Nodup ∧ ∀ x, x ∈ f l ↔ x ∈ l

/-- Model of `GrafanaClient.get_datasource_json`: look a datasource up by `uid`
(object form) or by name (string form); an unknown datasource raises
`DataSourceError`. -/
def getDatasourceJson (env : Env) (ds : DsRef) : Except PyErr DsJson :=
  match ds with
  | .byUid _ uid =>
    match env.datasources.find? (fun d => d.uid = uid) with
    | some d => .ok d
    | none => .error (.dataSourceError ("Datasource is not available".data))
  | .byName name =>
    match env.datasources.find? (fun d => d.name = name) with
    | some d => .ok d
    | none => .error (.dataSourceError ("Datasource is not available".data))

/-- Python `m.get(label, '')` on a series object, modelled as first-match
lookup in an association list. -/
def assocGetD (m : List (Str × Str)) (k : Str) : Str :=
  match m.find? (fun p => p.1 = k) with
  | some p => p.2
  | none => []

/-- Model of `GrafanaClient.__prom_label_values`: with no metric expression, the
label-values endpoint's `data` is returned as is; with a metric
expression, the (possibly `$job`-substituted) metric is sent to the
series endpoint, the label's value is extracted from each series,
`$__all` and empty values are filtered out, and the result is passed
through `list(set(...))`. -/
def promLabelValues (env : Env) (metric label : Str) (dsId : Nat) :
    List Str :=
  if metric = [] then
    env.labelEndpoint dsId label
  else
    let vals := (env.seriesEndpoint dsId
      (promSentMetric env.nodeExporterJobName metric)).map
        (fun m => assocGetD m label)
    env.pySetList (vals.filter (fun v => v ≠ ("$__all".data) ∧ v ≠ []))

/-- Model of `GrafanaClient.query_prometheus`: on a `label_values` grammar match,
delegate to `promLabelValues` with the matched groups; on a non-match the
function falls through and returns Python `None`, modelled as `none`. -/
def queryPrometheus (env : Env) (q : QueryJson) (dsId : Nat) :
    Option (List Str) :=
  match labelValuesMatch q.query with
  | some (metric, label) => some (promLabelValues env metric label dsId)
  | none => none

/-- Model of `GrafanaClient.execute_query`: resolve the datasource, dispatch on its
type; `prometheus` delegates to `queryPrometheus`, `loki` and any other
type raise `DataSourceError`. -/
def executeQuery (env : Env) (q : QueryJson) (ds : DsRef) :
    Except PyErr (Option (List Str)) :=
  match getDatasourceJson env ds with
  | .error e => .error e
  | .ok dsj =>
    if dsj.dstype = ("prometheus".data) then
      .ok (queryPrometheus env q dsj.id)
    else if dsj.dstype = ("loki".data) then
      .error (.dataSourceError ("Loki queries not implemented yet".data))
    else
      .error (.dataSourceError (("Unsupported datasource type `".data)
        ++ dsj.dstype ++ ("`".data)))

/-- Model of `Dashboard.__resolve_variable`: dispatch on the declared type
(`custom` / `interval` filter their own sentinel from the option values,
`query` delegates to `executeQuery`, anything else raises
`VariableError`), then apply the ignore filter (values whose
`re.match` against the ignore pattern succeeds are dropped; the compiled
pattern is abstracted as a Boolean predicate, `none` standing for the
empty pattern).  A `None` query result reaches `list(values)` /
`filter(..., values)` and raises Python `TypeError`. -/
def resolveVariable (env : Env) (ignore : Option (Str → Bool))
    (var : VarDecl) : Except PyErr Variable :=
  match
    (if var.vtype = ("custom".data) then
      .ok (var.options.filter (fun o => o ≠ ("$__all".data)))
    else if var.vtype = ("interval".data) then
      .ok (var.options.filter (fun o => o ≠ ("$__auto_interval_interval".data)))
    else if var.vtype = ("query".data) then
      match executeQuery env var.query var.datasource with
      | .error e => .error e
      | .ok (some vs) => .ok vs
      | .ok none => .error (.typeError ("NoneType object is not iterable".data))
    else
      .error (.variableError (("Variable type `".data) ++ var.vtype
        ++ ("` is currently not supported".data)))
    : Except PyErr (List Str))
  with
  | .error e => .error e
  | .ok values =>
    .ok ⟨var.name,
      match ignore with
      | some f => values.filter (fun o => ! f o)
      | none => values⟩

/-- One entry of `config.yaml`'s `dashboards` list, with the two regex
fields abstracted as predicates: `varSelect` models
`re.fullmatch` of the alternation of the configured variable names and
`ignore` models `re.match` of the ignore pattern (`none` when empty). -/
structure DashConfig where
  uid : Str
  varSelect : Str → Bool
  ignore : Option (Str → Bool)
  collapsed : Bool
  graphWidth : Nat
  graphHeight : Nat

/-- The declared variables selected for expansion: those whose name fully
matches the configured alternation, in declaration order
(`Dashboard.__init__`). -/
def selectedDecls (cfg : DashConfig) (dj : DashJson) : List VarDecl :=
  dj.templating.filter (fun d => cfg.varSelect d.name)

/-- The resolution loop of `Dashboard.__init__`: resolve each selected
variable in declaration order, appending to the variable list; the first
raised exception propagates. -/
def resolveAll (env : Env) (ignore : Option (Str → Bool)) :
    List VarDecl → Except PyErr (List Variable)
  | [] => .ok []
  | d :: ds =>
    match resolveVariable env ignore d with
    | .error e => .error e
    | .ok v =>
      match resolveAll env ignore ds with
      | .error e => .error e
      | .ok vs => .ok (v :: vs)

/-- Model of `Dashboard.__init__` followed by `Dashboard.create_plots`: fetch the
dashboard, resolve the selected variables in order (the first failure
propagates), then generate all render requests. -/
def processDashboard (env : Env) (cfg : DashConfig) :
    Except PyErr (List RenderRequest) :=
  match env.getDashboard cfg.uid with
  | .error e => .error e
  | .ok dj =>
    match resolveAll env cfg.ignore (selectedDecls cfg dj) with
    | .error e => .error e
    | .ok vars =>
      .ok (createPlots ⟨env.slug, cfg.graphWidth, cfg.graphHeight⟩ vars
        cfg.collapsed [] dj.slug dj.panels)

/-- Per-dashboard outcome as observed by the batch driver's log: requests
issued on success, the logged exception on a caught failure. -/
inductive Outcome where
  | success (requests : List RenderRequest)
  | failure (err : PyErr)
  deriving DecidableEq, Repr

/-- Model of `plots.plot_dashboard`: any `VariableError`, `DataSourceError` or
`ApiError` is caught and logged as a per-dashboard failure; any other
exception (such as `TypeError`) is not caught and propagates. -/
def plotDashboard (env : Env) (cfg : DashConfig) : Except PyErr Outcome :=
  match processDashboard env cfg with
  | .ok reqs => .ok (.success reqs)
  | .error (.variableError m) => .ok (.failure (.variableError m))
  | .error (.dataSourceError m) => .ok (.failure (.dataSourceError m))
  | .error (.apiError m) => .ok (.failure (.apiError m))
  | .error (.typeError m) => .error (.typeError m)

/-- The sequential mode of `plots.run`: dashboards are processed one after
the other; an uncaught exception aborts the remaining batch. -/
def runBatchSeq (env : Env) : List DashConfig → Except PyErr (List Outcome)
  | [] => .ok []
  | c :: cs =>
    match plotDashboard env c with
    | .error e => .error e
    | .ok o =>
      match runBatchSeq env cs with
      | .error e => .error e
      | .ok os => .ok (o :: os)

/-- Order-preserving deduplication relative to an already-seen set: values
already seen are dropped, new values are kept and recorded. -/
def dedupFirstAux (seen : List Str) : List Str → List Str
  | [] => []
  | x :: xs =>
    if x ∈ seen then dedupFirstAux seen xs
    else x :: dedupFirstAux (x :: seen) xs

/-- Order-preserving deduplication where the first occurrence wins — the
specification's notion of stable deduplication. -/
def dedupFirst (l : List Str) : List Str := dedupFirstAux [] l

/-- Membership in `dedupFirstAux`: exactly the unseen members of the
input. -/
theorem mem_dedupFirstAux :
    ∀ (l seen : List Str) (x : Str),
      x ∈ dedupFirstAux seen l ↔ x ∈ l ∧ x ∉ seen := by
  intro l
  induction l with
  | nil =>
    intro seen x
    simp [dedupFirstAux]
  | cons p ps ih =>
    intro seen x
    simp only [dedupFirstAux]
    by_cases hp : p ∈ seen
    · rw [if_pos hp, ih seen x]
      constructor
      · rintro ⟨h1, h2⟩
        exact ⟨List.mem_cons_of_mem p h1, h2⟩
      · rintro ⟨h1, h2⟩
        rcases List.mem_cons.1 h1 with rfl | h1
        · exact absurd hp h2
        · exact ⟨h1, h2⟩
    · rw [if_neg hp]
      constructor
      · intro hx
        rcases List.mem_cons.1 hx with rfl | hx
        · exact ⟨List.mem_cons_self x ps, hp⟩
        · rcases (ih (p :: seen) x).1 hx with ⟨h1, h2⟩
          refine ⟨List.mem_cons_of_mem p h1, fun hc => h2 (List.mem_cons_of_mem p hc)⟩
      · rintro ⟨h1, h2⟩
        rcases List.mem_cons.1 h1 with rfl | h1
        · exact List.mem_cons_self x _
        · by_cases hxp : x = p
          · subst hxp
            exact List.mem_cons_self x _
          · refine List.mem_cons_of_mem p ((ih (p :: seen) x).2 ⟨h1, ?_⟩)
            intro hc
            rcases List.mem_cons.1 hc with h | h
            · exact hxp h
            · exact h2 h

/-- Lemma: `dedupFirst` keeps exactly the members of its input. -/
theorem mem_dedupFirst (l : List Str) (x : Str) :
    x ∈ dedupFirst l ↔ x ∈ l := by
  rw [dedupFirst, mem_dedupFirstAux]
  simp

/-- Lemma: `dedupFirstAux` produces a duplicate-free list. -/
theorem dedupFirstAux_nodup :
    ∀ (l seen : List Str), (dedupFirstAux seen l).Nodup := by
  intro l
  induction l with
  | nil =>
    intro seen
    simp [dedupFirstAux]
  | cons p ps ih =>
    intro seen
    simp only [dedupFirstAux]
    by_cases hp : p ∈ seen
    · rw [if_pos hp]
      exact ih seen
    · rw [if_neg hp]
      refine List.nodup_cons.2 ⟨?_, ih (p :: seen)⟩
      intro hmem
      rcases (mem_dedupFirstAux ps (p :: seen) p).1 hmem with ⟨_, h2⟩
      exact h2 (List.mem_cons_self p seen)

/-- Lemma: `dedupFirst` produces a duplicate-free list. -/
theorem dedupFirst_nodup (l : List Str) : (dedupFirst l).Nodup :=
  dedupFirstAux_nodup l []

/-- Admissibility: `dedupFirst` is an admissible behaviour of Python's `list(set(...))`. -/
theorem isPySetList_dedupFirst : IsPySetList dedupFirst :=
  fun l => ⟨dedupFirst_nodup l, fun x => mem_dedupFirst l x⟩

/-- Reversed stable deduplication: another admissible behaviour of
Python's `list(set(...))` (set enumeration order is unspecified). -/
def pySetRev (l : List Str) : List Str := (dedupFirst l).reverse

/-- Admissibility: `pySetRev` is an admissible behaviour of Python's `list(set(...))`. -/
theorem isPySetList_pySetRev : IsPySetList pySetRev := by
  intro l
  refine ⟨List.nodup_reverse.2 (dedupFirst_nodup l), fun x => ?_⟩
  rw [pySetRev, List.mem_reverse]
  exact mem_dedupFirst l x

/-- Lemma: `splitOnSub` always yields at least one part. -/
theorem splitOnSub_ne_nil (old : Str) : ∀ s, splitOnSub old s ≠ [] := by
  intro s
  induction s using splitOnSub.induct old with
  | case1 => simp [splitOnSub]
  | case2 c cs h ih =>
    unfold splitOnSub
    rw [dif_pos h]
    simp
  | case3 c cs h heq ih => exact absurd heq ih
  | case4 c cs h p ps heq ih =>
    unfold splitOnSub
    rw [dif_neg h, heq]
    simp

/-- Joining the parts of `splitOnSub` with the pattern itself rebuilds the
original string: the parts are exactly the segments between the leftmost
non-overlapping occurrences of the pattern. -/
theorem joinWith_splitOnSub (old : Str) :
    ∀ s, joinWith old (splitOnSub old s) = s := by
  intro s
  induction s using splitOnSub.induct old with
  | case1 => simp [splitOnSub, joinWith]
  | case2 c cs h ih =>
    unfold splitOnSub
    rw [dif_pos h]
    rcases hps : splitOnSub old ((c :: cs).drop old.length) with _ | ⟨q, qs⟩
    · exact absurd hps (splitOnSub_ne_nil old _)
    · rw [hps] at ih
      show joinWith old ([] :: q :: qs) = c :: cs
      have hj : joinWith old ([] :: q :: qs) = old ++ joinWith old (q :: qs) := by
        simp [joinWith]
      rw [hj, ih]
      obtain ⟨t, ht⟩ := List.isPrefixOf_iff_prefix.1 h.2
      rw [← ht, List.drop_left]
  | case3 c cs h heq ih => exact absurd heq (splitOnSub_ne_nil old cs)
  | case4 c cs h p ps heq ih =>
    unfold splitOnSub
    rw [dif_neg h, heq]
    rw [heq] at ih
    cases ps with
    | nil =>
      show joinWith old [c :: p] = c :: cs
      have : joinWith old [p] = p := rfl
      simp only [joinWith]
      rw [show joinWith old [p] = cs from ih] at this
      simpa [joinWith] using congrArg (fun l => c :: l) ih
    | cons q qs =>
      show joinWith old ((c :: p) :: q :: qs) = c :: cs
      have h1 : joinWith old ((c :: p) :: q :: qs)
          = (c :: p) ++ old ++ joinWith old (q :: qs) := rfl
      have h2 : joinWith old (p :: q :: qs)
          = p ++ old ++ joinWith old (q :: qs) := rfl
      rw [h1]
      rw [h2] at ih
      rw [← ih]
      simp

/-- Lemma: `pyReplaceAux` equals the parts of `splitOnSub` joined with the
replacement text: every leftmost non-overlapping occurrence of the
pattern is replaced and nothing else changes. -/
theorem pyReplaceAux_eq_joinWith (old new : Str) :
    ∀ s, pyReplaceAux old new s = joinWith new (splitOnSub old s) := by
  intro s
  induction s using splitOnSub.induct old with
  | case1 => simp [pyReplaceAux, splitOnSub, joinWith]
  | case2 c cs h ih =>
    unfold pyReplaceAux splitOnSub
    rw [dif_pos h, dif_pos h]
    rcases hps : splitOnSub old ((c :: cs).drop old.length) with _ | ⟨q, qs⟩
    · exact absurd hps (splitOnSub_ne_nil old _)
    · rw [hps] at ih
      show new ++ pyReplaceAux old new ((c :: cs).drop old.length)
        = joinWith new ([] :: q :: qs)
      have hj : joinWith new ([] :: q :: qs) = new ++ joinWith new (q :: qs) := by
        simp [joinWith]
      rw [hj, ih]
  | case3 c cs h heq ih => exact absurd heq (splitOnSub_ne_nil old cs)
  | case4 c cs h p ps heq ih =>
    unfold pyReplaceAux splitOnSub
    rw [dif_neg h, dif_neg h, heq]
    rw [heq] at ih
    cases ps with
    | nil =>
      show c :: pyReplaceAux old new cs = joinWith new [c :: p]
      rw [ih]
      rfl
    | cons q qs =>
      show c :: pyReplaceAux old new cs = joinWith new ((c :: p) :: q :: qs)
      rw [ih]
      rfl

/-- The head part of a `joinWith` image is a prefix of the whole. -/
theorem head_prefix_joinWith (sep p : Str) (ps : List Str) :
    p <+: joinWith sep (p :: ps) := by
  cases ps with
  | nil => exact List.prefix_refl p
  | cons q qs =>
    show p <+: p ++ sep ++ joinWith sep (q :: qs)
    rw [List.append_assoc]
    exact List.prefix_append p _

/-- Substring containment at a cons cell: an occurrence starts at the head
or lies in the tail. -/
theorem containsSub_cons (n : Str) (c : Char) (t : Str) :
    containsSub n (c :: t) = (n.isPrefixOf (c :: t) || containsSub n t) := by
  simp [containsSub]

/-- A nonempty string is not contained in the empty string. -/
theorem containsSub_nil {old : Str} (h : old ≠ []) :
    containsSub old [] = false := by
  cases old with
  | nil => exact absurd rfl h
  | cons a as => rfl

/-- No part produced by `splitOnSub` contains the (nonempty) pattern: the
scan replaced every occurrence. -/
theorem splitOnSub_parts_free (old : Str) (hne : old ≠ []) :
    ∀ s p, p ∈ splitOnSub old s → containsSub old p = false := by
  intro s
  induction s using splitOnSub.induct old with
  | case1 =>
    intro p hp
    simp only [splitOnSub, List.mem_singleton] at hp
    subst hp
    exact containsSub_nil hne
  | case2 c cs h ih =>
    intro p hp
    unfold splitOnSub at hp
    rw [dif_pos h] at hp
    rcases List.mem_cons.1 hp with rfl | hp2
    · exact containsSub_nil hne
    · exact ih p hp2
  | case3 c cs h heq ih => exact absurd heq (splitOnSub_ne_nil old cs)
  | case4 c cs h p0 ps heq ih =>
    intro p hp
    unfold splitOnSub at hp
    rw [dif_neg h, heq] at hp
    have hnopre : old.isPrefixOf (c :: cs) = false := by
      by_contra hb
      exact h ⟨hne, by simpa using hb⟩
    rcases List.mem_cons.1 hp with rfl | hp2
    · rw [containsSub_cons]
      have htail : containsSub old p0 = false :=
        ih p0 (heq ▸ List.mem_cons_self p0 ps)
      have hhead : old.isPrefixOf (c :: p0) = false := by
        by_contra hb
        have hpre : old <+: (c :: p0) :=
          List.isPrefixOf_iff_prefix.1 (by simpa using hb)
        have hp0cs : p0 <+: cs := by
          conv_rhs => rw [← joinWith_splitOnSub old cs, heq]
          exact head_prefix_joinWith old p0 ps
        have : old <+: (c :: cs) :=
          hpre.trans ((List.cons_prefix_cons).2 ⟨rfl, hp0cs⟩)
        rw [List.isPrefixOf_iff_prefix.2 this] at hnopre
        cases hnopre
      rw [hhead, htail]
      rfl
    · exact ih p (heq ▸ List.mem_cons_of_mem p0 hp2)

/-- A Prometheus datasource entry with internal id 1. -/
def exDsProm : DsJson := ⟨"prom".data, "u1".data, "prometheus".data, 1⟩

/-- Concrete environment whose label-values endpoint returns
`["n1", "n2", "$__all"]` for every label. -/
def exEnvLabel : Env :=
  { getDashboard := fun _ => .error (.apiError []),
    datasources := [exDsProm],
    labelEndpoint := fun _ _ => [("n1".data), ("n2".data), ("$__all".data)],
    seriesEndpoint := fun _ _ => [],
    pySetList := dedupFirst,
    nodeExporterJobName := ("node".data),
    slug := fun s => s }

/-- Concrete environment whose series endpoint returns series with `lab`
values `n1`, `n2`, `$__all`, `n1` again, and one series without the
label. -/
def exEnvSeries : Env :=
  { exEnvLabel with
    seriesEndpoint := fun _ _ =>
      [[(("lab".data), ("n1".data))], [(("lab".data), ("n2".data))],
       [(("lab".data), ("$__all".data))], [(("lab".data), ("n1".data))], []] }

/-- The same series environment with the other admissible
`list(set(...))` enumeration order. -/
def exEnvSeriesRev : Env := { exEnvSeries with pySetList := pySetRev }

/-- A custom-type variable declaration with duplicated option values and a
stray auto-interval sentinel among them. -/
def exVarCustomDup : VarDecl :=
  ⟨"v".data, "custom".data,
   [("a".data), ("a".data), ("$__auto_interval_interval".data)],
   ⟨[]⟩, .byName []⟩

/-- A custom-type variable declaration whose options include `$__all`. -/
def exVarCustomAll : VarDecl :=
  ⟨"v".data, "custom".data, [("a".data), ("$__all".data)], ⟨[]⟩, .byName []⟩

/-- An interval-type variable declaration with the auto-interval
sentinel among its options. -/
def exVarInterval : VarDecl :=
  ⟨"i".data, "interval".data,
   [("1m".data), ("$__auto_interval_interval".data)], ⟨[]⟩, .byName []⟩

/-- Counterexample to C3 as stated: a custom variable with options
`["a", "a", "$__auto_interval_interval"]` resolves to exactly that list —
it keeps the duplicate and the auto-interval sentinel, because the custom
branch filters only `$__all` and never deduplicates. -/
theorem c3_counterexample_custom_keeps_dup_and_sentinel :
    resolveVariable exEnvLabel none exVarCustomDup
      = .ok ⟨"v".data,
          [("a".data), ("a".data), ("$__auto_interval_interval".data)]⟩
    ∧ ¬ ([("a".data), ("a".data),
          ("$__auto_interval_interval".data)] : List Str).Nodup
    ∧ ("$__auto_interval_interval".data)
        ∈ ([("a".data), ("a".data),
            ("$__auto_interval_interval".data)] : List Str) := by
  refine ⟨rfl, by decide, by decide⟩

/-- C3 (amended): a custom variable's resolved values never contain
`$__all`, and an interval variable's resolved values never contain
`$__auto_interval_interval` — each branch filters exactly its own
sentinel; no deduplication and no cross-sentinel filtering is performed. -/
theorem c3_own_sentinel_filtered :
    ∀ (env : Env) (ignore : Option (Str → Bool)) (var : VarDecl)
      (v : Variable),
      resolveVariable env ignore var = .ok v →
      (var.vtype = ("custom".data) → ("$__all".data) ∉ v.values) ∧
      (var.vtype = ("interval".data) →
        ("$__auto_interval_interval".data) ∉ v.values) := by
  intro env ignore var v h
  constructor
  · intro ht
    unfold resolveVariable at h
    rw [ht, if_pos rfl] at h
    split at h
    · exact Except.noConfusion h
    · rename_i values heq
      simp only [Except.ok.injEq] at heq h
      subst h
      cases ignore with
      | none =>
        simp only [← heq]
        simp [List.mem_filter]
      | some f =>
        simp only [← heq]
        simp [List.mem_filter]
  · intro ht
    unfold resolveVariable at h
    rw [ht, if_neg (by decide), if_pos rfl] at h
    split at h
    · exact Except.noConfusion h
    · rename_i values heq
      simp only [Except.ok.injEq] at heq h
      subst h
      cases ignore with
      | none =>
        simp only [← heq]
        simp [List.mem_filter]
      | some f =>
        simp only [← heq]
        simp [List.mem_filter]

/-- Witness for the amended C3 at concrete custom and interval variables. -/
theorem c3_own_sentinel_filtered_witness :
    ("$__all".data) ∉ (Variable.mk ("v".data) [("a".data)]).values
    ∧ ("$__auto_interval_interval".data)
        ∉ (Variable.mk ("i".data) [("1m".data)]).values := by
  constructor
  · exact (c3_own_sentinel_filtered exEnvLabel none exVarCustomAll
      (Variable.mk ("v".data) [("a".data)]) rfl).1 rfl
  · exact (c3_own_sentinel_filtered exEnvLabel none exVarInterval
      (Variable.mk ("i".data) [("1m".data)]) rfl).2 rfl

/-- A query-type variable whose `label_values` query names no metric
expression, so resolution takes the direct label-values path. -/
def exVarQueryLab : VarDecl :=
  ⟨"v".data, "query".data, [], ⟨"label_values(lab)".data⟩,
   .byName ("prom".data)⟩

/-- Counterexample to C4 as stated: resolving a query variable through the
no-metric-expression path against a datasource returning
`["n1", "n2", "$__all"]` yields that very list — the sentinel is not
filtered and nothing is deduplicated on this path, so the resolution does
not yield exactly `["n1", "n2"]`. -/
theorem c4_counterexample_no_metric_path_unfiltered :
    resolveVariable exEnvLabel none exVarQueryLab
      = .ok ⟨"v".data, [("n1".data), ("n2".data), ("$__all".data)]⟩
    ∧ ("$__all".data)
        ∈ ([("n1".data), ("n2".data), ("$__all".data)] : List Str)
    ∧ ([("n1".data), ("n2".data), ("$__all".data)] : List Str)
        ≠ [("n1".data), ("n2".data)] := by
  refine ⟨rfl, by decide, by decide⟩

/-- C4 (amended): deduplication and the filtering of `$__all` and empty
strings happen only on the metric-expression path of
`__prom_label_values`; the no-metric path returns the label endpoint's
data unmodified.  On the metric path, for any admissible
`list(set(...))` behaviour, the output is duplicate-free and holds
exactly the extracted label values other than `$__all` and the empty
string. -/
theorem c4_filtering_only_on_metric_path :
    ∀ (env : Env) (metric label : Str) (dsId : Nat),
      (metric = [] →
        promLabelValues env metric label dsId = env.labelEndpoint dsId label)
      ∧ (metric ≠ [] → IsPySetList env.pySetList →
        (promLabelValues env metric label dsId).Nodup
        ∧ ("$__all".data) ∉ promLabelValues env metric label dsId
        ∧ ([] : Str) ∉ promLabelValues env metric label dsId
        ∧ ∀ x, x ∈ promLabelValues env metric label dsId ↔
            (x ∈ (env.seriesEndpoint dsId (promSentMetric
                env.nodeExporterJobName metric)).map
                  (fun m => assocGetD m label)
             ∧ x ≠ ("$__all".data) ∧ x ≠ [])) := by
  intro env metric label dsId
  constructor
  · intro h
    simp [promLabelValues, h]
  · intro h hset
    have hred : promLabelValues env metric label dsId
        = env.pySetList (((env.seriesEndpoint dsId (promSentMetric
            env.nodeExporterJobName metric)).map
              (fun m => assocGetD m label)).filter
                (fun v => v ≠ ("$__all".data) ∧ v ≠ [])) := by
      simp [promLabelValues, h]
    obtain ⟨hnd, hmem⟩ := hset (((env.seriesEndpoint dsId (promSentMetric
        env.nodeExporterJobName metric)).map
          (fun m => assocGetD m label)).filter
            (fun v => v ≠ ("$__all".data) ∧ v ≠ []))
    rw [hred]
    have hchar : ∀ x, x ∈ (((env.seriesEndpoint dsId (promSentMetric
        env.nodeExporterJobName metric)).map
          (fun m => assocGetD m label)).filter
            (fun v => v ≠ ("$__all".data) ∧ v ≠ [])) ↔
        (x ∈ (env.seriesEndpoint dsId (promSentMetric
            env.nodeExporterJobName metric)).map
              (fun m => assocGetD m label)
         ∧ x ≠ ("$__all".data) ∧ x ≠ []) := by
      intro x
      simp [List.mem_filter]
    refine ⟨hnd, ?_, ?_, ?_⟩
    · intro hc
      rcases (hchar _).1 ((hmem _).1 hc) with ⟨_, hne, _⟩
      exact hne rfl
    · intro hc
      rcases (hchar _).1 ((hmem _).1 hc) with ⟨_, _, hne⟩
      exact hne rfl
    · intro x
      exact (hmem x).trans (hchar x)

/-- Witness for the amended C4: the no-metric path returns the endpoint
data as is, and the metric path against `exEnvSeries` gives a
duplicate-free result without the sentinel. -/
theorem c4_filtering_only_on_metric_path_witness :
    promLabelValues exEnvLabel [] ("lab".data) 1
      = exEnvLabel.labelEndpoint 1 ("lab".data)
    ∧ (promLabelValues exEnvSeries ("up".data) ("lab".data) 1).Nodup
    ∧ ("$__all".data) ∉ promLabelValues exEnvSeries ("up".data) ("lab".data) 1 := by
  refine ⟨(c4_filtering_only_on_metric_path exEnvLabel [] ("lab".data) 1).1 rfl,
    ((c4_filtering_only_on_metric_path exEnvSeries ("up".data) ("lab".data) 1).2
      (by decide) isPySetList_dedupFirst).1,
    ((c4_filtering_only_on_metric_path exEnvSeries ("up".data) ("lab".data) 1).2
      (by decide) isPySetList_dedupFirst).2.1⟩

/-- Counterexample to C5 as stated: Python's `list(set(...))` on the
metric path fixes no enumeration order, so the resolved order is not the
source order with stable first-occurrence deduplication, and two
resolutions of identical backend data under two admissible set orders
(two runs with different hash seeds) yield differently ordered lists. -/
theorem c5_counterexample_set_order_unspecified :
    IsPySetList dedupFirst ∧ IsPySetList pySetRev
    ∧ promLabelValues exEnvSeries ("up".data) ("lab".data) 1
        = [("n1".data), ("n2".data)]
    ∧ promLabelValues exEnvSeriesRev ("up".data) ("lab".data) 1
        = [("n2".data), ("n1".data)]
    ∧ promLabelValues exEnvSeriesRev ("up".data) ("lab".data) 1
        ≠ dedupFirst (((exEnvSeriesRev.seriesEndpoint 1 (promSentMetric
            exEnvSeriesRev.nodeExporterJobName ("up".data))).map
              (fun m => assocGetD m ("lab".data))).filter
                (fun v => v ≠ ("$__all".data) ∧ v ≠ []))
    ∧ promLabelValues exEnvSeries ("up".data) ("lab".data) 1
        ≠ promLabelValues exEnvSeriesRev ("up".data) ("lab".data) 1 := by
  refine ⟨isPySetList_dedupFirst, isPySetList_pySetRev, rfl, rfl,
    by decide, by decide⟩

/-- C5 (amended): the no-metric path returns the source's values in source
order unchanged; the metric path returns some permutation of the stable
first-occurrence deduplication of the filtered source values — the
multiset of values is determined, the order is whatever
`list(set(...))` produces. -/
theorem c5_values_determined_order_not :
    ∀ (env : Env) (metric label : Str) (dsId : Nat),
      (metric = [] →
        promLabelValues env metric label dsId = env.labelEndpoint dsId label)
      ∧ (metric ≠ [] → IsPySetList env.pySetList →
        (promLabelValues env metric label dsId).Perm
          (dedupFirst (((env.seriesEndpoint dsId (promSentMetric
              env.nodeExporterJobName metric)).map
                (fun m => assocGetD m label)).filter
                  (fun v => v ≠ ("$__all".data) ∧ v ≠ [])))) := by
  intro env metric label dsId
  constructor
  · intro h
    simp [promLabelValues, h]
  · intro h hset
    have hred : promLabelValues env metric label dsId
        = env.pySetList (((env.seriesEndpoint dsId (promSentMetric
            env.nodeExporterJobName metric)).map
              (fun m => assocGetD m label)).filter
                (fun v => v ≠ ("$__all".data) ∧ v ≠ [])) := by
      simp [promLabelValues, h]
    rw [hred]
    obtain ⟨hnd, hmem⟩ := hset (((env.seriesEndpoint dsId (promSentMetric
        env.nodeExporterJobName metric)).map
          (fun m => assocGetD m label)).filter
            (fun v => v ≠ ("$__all".data) ∧ v ≠ []))
    refine (List.perm_ext_iff_of_nodup hnd (dedupFirst_nodup _)).2 ?_
    intro a
    rw [hmem a, mem_dedupFirst]

/-- Witness for the amended C5 at the concrete environments. -/
theorem c5_values_determined_order_not_witness :
    promLabelValues exEnvLabel [] ("other".data) 1
      = exEnvLabel.labelEndpoint 1 ("other".data)
    ∧ (promLabelValues exEnvSeriesRev ("up".data) ("lab".data) 1).Perm
        (dedupFirst (((exEnvSeriesRev.seriesEndpoint 1 (promSentMetric
            exEnvSeriesRev.nodeExporterJobName ("up".data))).map
              (fun m => assocGetD m ("lab".data))).filter
                (fun v => v ≠ ("$__all".data) ∧ v ≠ []))) := by
  refine ⟨(c5_values_determined_order_not exEnvLabel [] ("other".data) 1).1 rfl,
    (c5_values_determined_order_not exEnvSeriesRev ("up".data)
      ("lab".data) 1).2 (by decide) isPySetList_pySetRev⟩

/-- C10: when the metric expression contains the substring `node`, every
occurrence of the literal `$job` is replaced by the configured
node-exporter job name before the series query is sent (the replacement
equals the occurrence-free segments of the expression joined with the job
name, and joining the same segments with `$job` rebuilds the
expression); metric expressions not containing `node` are sent
unmodified. -/
theorem c10_node_job_substitution :
    (∀ (jobName metric : Str), containsSub ("node".data) metric = false →
      promSentMetric jobName metric = metric)
    ∧ (∀ (jobName metric : Str), containsSub ("node".data) metric = true →
      promSentMetric jobName metric = pyReplace metric ("$job".data) jobName)
    ∧ (∀ (env : Env) (metric label : Str) (dsId : Nat), metric ≠ [] →
      promLabelValues env metric label dsId
        = env.pySetList (((env.seriesEndpoint dsId (promSentMetric
            env.nodeExporterJobName metric)).map
              (fun m => assocGetD m label)).filter
                (fun v => v ≠ ("$__all".data) ∧ v ≠ [])))
    ∧ (∀ (s new : Str), pyReplace s ("$job".data) new
        = joinWith new (splitOnSub ("$job".data) s))
    ∧ (∀ s : Str, joinWith ("$job".data) (splitOnSub ("$job".data) s) = s)
    ∧ (∀ (s p : Str), p ∈ splitOnSub ("$job".data) s →
        containsSub ("$job".data) p = false) := by
  refine ⟨?_, ?_, ?_, ?_, ?_, ?_⟩
  · intro jobName metric h
    simp [promSentMetric, h]
  · intro jobName metric h
    simp [promSentMetric, h]
  · intro env metric label dsId h
    simp [promLabelValues, h]
  · intro s new
    exact pyReplaceAux_eq_joinWith _ _ s
  · intro s
    exact joinWith_splitOnSub _ s
  · intro s p hp
    exact splitOnSub_parts_free _ (by decide) s p hp

/-- Witness for C10 at concrete metric expressions and environment. -/
theorem c10_node_job_substitution_witness :
    promSentMetric ("nej".data) ("cpu $job".data) = ("cpu $job".data)
    ∧ promSentMetric ("nej".data) ("node_x and $job".data)
        = pyReplace ("node_x and $job".data) ("$job".data) ("nej".data)
    ∧ promLabelValues exEnvSeries ("up".data) ("lab".data) 1
        = exEnvSeries.pySetList (((exEnvSeries.seriesEndpoint 1
            (promSentMetric exEnvSeries.nodeExporterJobName ("up".data))).map
              (fun m => assocGetD m ("lab".data))).filter
                (fun v => v ≠ ("$__all".data) ∧ v ≠ []))
    ∧ containsSub ("$job".data) ("node_x and ".data) = false := by
  refine ⟨c10_node_job_substitution.1 ("nej".data) ("cpu $job".data) (by decide),
    c10_node_job_substitution.2.1 ("nej".data) ("node_x and $job".data)
      (by decide),
    c10_node_job_substitution.2.2.1 exEnvSeries ("up".data) ("lab".data) 1
      (by decide),
    c10_node_job_substitution.2.2.2.2.2 ("node_x and $job".data)
      ("node_x and ".data) (by simp [splitOnSub])⟩

/-- An unsupported declared variable type raises `VariableError` naming
that type. -/
theorem resolveVariable_unsupported (env : Env) (ig : Option (Str → Bool))
    (d : VarDecl)
    (h1 : d.vtype ≠ ("custom".data)) (h2 : d.vtype ≠ ("interval".data))
    (h3 : d.vtype ≠ ("query".data)) :
    resolveVariable env ig d = .error (.variableError
      (("Variable type `".data) ++ d.vtype
        ++ ("` is currently not supported".data))) := by
  unfold resolveVariable
  rw [if_neg h1, if_neg h2, if_neg h3]

/-- The resolution loop splits over list concatenation. -/
theorem resolveAll_append (env : Env) (ig : Option (Str → Bool))
    (l₁ l₂ : List VarDecl) :
    resolveAll env ig (l₁ ++ l₂) =
      match resolveAll env ig l₁ with
      | .error e => .error e
      | .ok vs =>
        match resolveAll env ig l₂ with
        | .error e => .error e
        | .ok ws => .ok (vs ++ ws) := by
  induction l₁ with
  | nil =>
    cases h : resolveAll env ig l₂ <;> simp [resolveAll, h]
  | cons d ds ih =>
    simp only [List.cons_append, resolveAll, List.append_eq]
    rw [ih]
    cases hd : resolveVariable env ig d <;>
      cases h1 : resolveAll env ig ds <;>
      cases h2 : resolveAll env ig l₂ <;> simp

/-- C6: a dashboard variable whose declared type is none of `custom`,
`interval` or `query` makes that dashboard's processing fail with a
`VariableError` naming the unsupported type, and this failure is caught
at the per-dashboard boundary: a sibling dashboard in the same batch is
still processed to completion and the error is not raised past the
boundary. -/
theorem c6_unsupported_type_fails_dashboard_only :
    ∀ (env : Env) (cfg1 cfg2 : DashConfig) (dj : DashJson)
      (pre : List VarDecl) (d : VarDecl) (post : List VarDecl)
      (vs : List Variable) (o2 : Outcome),
      env.getDashboard cfg1.uid = .ok dj →
      selectedDecls cfg1 dj = pre ++ d :: post →
      resolveAll env cfg1.ignore pre = .ok vs →
      d.vtype ≠ ("custom".data) → d.vtype ≠ ("interval".data) →
      d.vtype ≠ ("query".data) →
      plotDashboard env cfg2 = .ok o2 →
      plotDashboard env cfg1 = .ok (.failure (.variableError
        (("Variable type `".data) ++ d.vtype
          ++ ("` is currently not supported".data))))
      ∧ runBatchSeq env [cfg1, cfg2]
        = .ok [.failure (.variableError (("Variable type `".data) ++ d.vtype
            ++ ("` is currently not supported".data))), o2] := by
  intro env cfg1 cfg2 dj pre d post vs o2 hdash hsel hpre h1 h2 h3 ho2
  have herr : resolveAll env cfg1.ignore (selectedDecls cfg1 dj)
      = .error (.variableError (("Variable type `".data) ++ d.vtype
          ++ ("` is currently not supported".data))) := by
    rw [hsel, resolveAll_append, hpre]
    show (match resolveAll env cfg1.ignore (d :: post) with
      | Except.error e => Except.error e
      | Except.ok ws => Except.ok (vs ++ ws)) = _
    simp only [resolveAll,
      resolveVariable_unsupported env cfg1.ignore d h1 h2 h3]
  have hproc : processDashboard env cfg1 = .error (.variableError
      (("Variable type `".data) ++ d.vtype
        ++ ("` is currently not supported".data))) := by
    unfold processDashboard
    rw [hdash]
    show (match resolveAll env cfg1.ignore (selectedDecls cfg1 dj) with
      | Except.error e => Except.error e
      | Except.ok vars => Except.ok (createPlots ⟨env.slug, cfg1.graphWidth,
          cfg1.graphHeight⟩ vars cfg1.collapsed [] dj.slug dj.panels)) = _
    rw [herr]
  have hplot1 : plotDashboard env cfg1 = .ok (.failure (.variableError
      (("Variable type `".data) ++ d.vtype
        ++ ("` is currently not supported".data)))) := by
    unfold plotDashboard
    rw [hproc]
  refine ⟨hplot1, ?_⟩
  show runBatchSeq env [cfg1, cfg2] = _
  simp only [runBatchSeq, hplot1, ho2]

/-- A variable declaration with the unsupported type `foo`. -/
def exVarFoo : VarDecl := ⟨"w".data, "foo".data, [], ⟨[]⟩, .byName []⟩

/-- Dashboard JSON holding only the unsupported-type variable. -/
def exDjBad : DashJson := ⟨"bad-slug".data, [exVarFoo], []⟩

/-- Dashboard JSON with no variables and no panels. -/
def exDjGood : DashJson := ⟨"good-slug".data, [], []⟩

/-- Batch environment: dashboard `d1` is the bad one, every other uid
fetches the good one. -/
def exEnvBatch : Env :=
  { exEnvLabel with
    getDashboard := fun uid =>
      if uid = ("d1".data) then .ok exDjBad else .ok exDjGood }

/-- Configuration selecting every variable for dashboard `d1`. -/
def exCfg1 : DashConfig := ⟨"d1".data, fun _ => true, none, false, 1200, 500⟩

/-- Configuration selecting every variable for dashboard `d2`. -/
def exCfg2 : DashConfig := ⟨"d2".data, fun _ => true, none, false, 1200, 500⟩

/-- Witness for C6: in the concrete batch the bad dashboard fails with the
`VariableError` naming type `foo` while its sibling completes. -/
theorem c6_unsupported_type_fails_dashboard_only_witness :
    plotDashboard exEnvBatch exCfg1 = .ok (.failure (.variableError
      (("Variable type `".data) ++ ("foo".data)
        ++ ("` is currently not supported".data))))
    ∧ runBatchSeq exEnvBatch [exCfg1, exCfg2]
      = .ok [.failure (.variableError (("Variable type `".data)
          ++ ("foo".data) ++ ("` is currently not supported".data))),
          .success []] := by
  have h := c6_unsupported_type_fails_dashboard_only exEnvBatch exCfg1 exCfg2
    exDjBad [] exVarFoo [] [] (.success []) rfl rfl rfl
    (by decide) (by decide) (by decide) rfl
  exact ⟨h.1, h.2⟩

/-- A query-type variable with the non-`label_values` query `up`. -/
def exVarQueryUp : VarDecl :=
  ⟨"q".data, "query".data, [], ⟨"up".data⟩, .byName ("prom".data)⟩

/-- Dashboard JSON holding only the non-matching query variable. -/
def exDjQuery : DashJson := ⟨"bad-slug".data, [exVarQueryUp], []⟩

/-- Batch environment where dashboard `d1` carries the non-matching query
variable. -/
def exEnvC8 : Env :=
  { exEnvLabel with
    getDashboard := fun uid =>
      if uid = ("d1".data) then .ok exDjQuery else .ok exDjGood }

/-- C8 (code bug): `query_prometheus` returns Python `None` on a
non-matching query, `__resolve_variable` then crashes with `TypeError` at
`list(values)`, and since `plot_dashboard` catches only `VariableError`,
`DataSourceError` and `ApiError`, the exception escapes the per-dashboard
boundary and aborts the remaining batch — instead of the variable simply
producing no values. -/
theorem c8_nonmatching_query_raises_type_error :
    queryPrometheus exEnvC8 ⟨"up".data⟩ 1 = none
    ∧ resolveVariable exEnvC8 none exVarQueryUp
        = .error (.typeError ("NoneType object is not iterable".data))
    ∧ plotDashboard exEnvC8 exCfg1
        = .error (.typeError ("NoneType object is not iterable".data))
    ∧ runBatchSeq exEnvC8 [exCfg1, exCfg2]
        = .error (.typeError ("NoneType object is not iterable".data)) := by
  exact ⟨rfl, rfl, rfl, rfl⟩

/-- C9: a top-level `row` panel is never itself rendered; unless
collapsed-row rendering is enabled and the row is collapsed it produces
no render request at all, and when both hold each child is processed with
the dashboard's base directory — rows add no directory level, so every
child request's directory extends the base directory with the child's
relevant variable-value slugs only. -/
theorem c9_row_panels_expansion :
    ∀ (cx : PlotCtx) (vars : List Variable) (rc : Bool) (dir : List Str)
      (p : Panel),
      p.ptype = ("row".data) →
      (¬ (rc = true ∧ p.collapsed = true) →
        plotTopPanel cx vars rc dir p = [])
      ∧ (rc = true ∧ p.collapsed = true →
        plotTopPanel cx vars rc dir p
          = p.panels.flatMap (createPanelPlot cx vars dir)
        ∧ (plotTopPanel cx vars rc dir p).map (fun r => r.dir)
          = p.panels.flatMap (fun c =>
              (cartProd ((vars.filter (fun v => relevantTo c v)).map
                Variable.values)).map
                (fun combo => dir ++ combo.map cx.slug))) := by
  intro cx vars rc dir p hrow
  have hnotne : ¬ (p.ptype ≠ ("row".data)) := by simp [hrow]
  have hexp : rc = true ∧ p.collapsed = true →
      plotTopPanel cx vars rc dir p
        = p.panels.flatMap (createPanelPlot cx vars dir) := by
    intro hc
    unfold plotTopPanel
    rw [if_neg hnotne, if_pos hc]
  constructor
  · intro hnc
    unfold plotTopPanel
    rw [if_neg hnotne, if_neg hnc]
  · intro hc
    refine ⟨hexp hc, ?_⟩
    rw [hexp hc, List.map_flatMap]
    apply List.flatMap_congr
    intro c _
    show (recPanel cx c vars dir []).2.map (fun r => r.dir) = _
    have hpair : (recPanel cx c vars dir []).2.map (fun r => r.dir)
        = ((recPanel cx c vars dir []).2.map
            (fun r => (r.dir, r.file))).map Prod.fst := by
      rw [List.map_map]
      rfl
    rw [hpair, recPanel_map_dirFile cx c vars dir [], List.map_map]
    apply List.map_congr_left
    intro combo _
    rfl

/-- A child panel inside the example row, referencing variable `A`. -/
def exChild : Panel :=
  .mk 3 ("child".data) ("stat".data) false [("sum(A)".data)] []

/-- A collapsed row panel holding one child panel. -/
def exRow : Panel :=
  .mk 9 ("rowp".data) ("row".data) true [] [exChild]

/-- Witness for C9 at the concrete collapsed row: zero requests with
collapsed rendering disabled, child expansion with the base directory
when enabled. -/
theorem c9_row_panels_expansion_witness :
    plotTopPanel exCx [exA] false [] exRow = []
    ∧ plotTopPanel exCx [exA] true [] exRow
      = exRow.panels.flatMap (createPanelPlot exCx [exA] []) := by
  refine ⟨(c9_row_panels_expansion exCx [exA] false [] exRow rfl).1
      (by simp),
    ((c9_row_panels_expansion exCx [exA] true [] exRow rfl).2
      ⟨rfl, rfl⟩).1⟩
